import Mathlib

/-!
Shallow embedding of `tours.py` (recreation-gov-campsite-checker, tours
variant).  The script resolves tour availability from the recreation.gov
API: it decomposes a date range into monthly queries, merges the monthly
JSON responses into a per-date snapshot, projects the snapshot into a
per-tour list of available date strings, renders a report and derives an
exit code.

Dates are modelled as proleptic-Gregorian (year, month, day) triples, the
calendar Python's `datetime.date` implements (years 1..9999).
`start_date + timedelta(days=x)` is day-ordinal arithmetic; we embed it as
`x`-fold iteration of the successor-day function, which agrees with the
ordinal arithmetic (proved below via `toOrdinal_nextDay`).  `%Y-%m-%d`
formatting is embedded as zero-padded decimal digits.  JSON objects are
embedded as association lists with Python-dict update semantics
(replace-in-place, insert at the end); the string keys `str(tour_id)` of
the per-date tour map are embedded as the integers themselves (`str` is
injective on integers).  HTTP is embedded as a function from a query to a
response record carrying a status code and an already-decoded payload;
`send_request` raises on any non-200 status, embedded as `Except`.
-/

namespace Tours

/-- `calendar.isleap` as used by Python's `datetime`. -/
def isLeap (y : Nat) : Bool :=
  y % 4 == 0 && (y % 100 != 0 || y % 400 == 0)

/-- Number of days of month `m` (1..12) of year `y`; junk value 0 outside 1..12. -/
def daysInMonth (y m : Nat) : Nat :=
  match m with
  | 1 => 31
  | 2 => if isLeap y then 29 else 28
  | 3 => 31
  | 4 => 30
  | 5 => 31
  | 6 => 30
  | 7 => 31
  | 8 => 31
  | 9 => 30
  | 10 => 31
  | 11 => 30
  | 12 => 31
  | _ => 0

/-- Days in year `y` before the first day of month `m` (cumulative month lengths). -/
def daysBeforeMonth (y m : Nat) : Nat :=
  let L : Nat := if isLeap y then 1 else 0
  match m with
  | 1 => 0
  | 2 => 31
  | 3 => 59 + L
  | 4 => 90 + L
  | 5 => 120 + L
  | 6 => 151 + L
  | 7 => 181 + L
  | 8 => 212 + L
  | 9 => 243 + L
  | 10 => 273 + L
  | 11 => 304 + L
  | 12 => 334 + L
  | _ => 0

/-- Number of days of year `y`. -/
def daysInYear (y : Nat) : Nat := if isLeap y then 366 else 365

/-- Days before January 1 of year `y` counted from the proleptic-Gregorian epoch
(year 1), as in CPython's `datetime._days_before_year`. -/
def daysBeforeYear (y : Nat) : Nat :=
  (y - 1) * 365 + (y - 1) / 4 - (y - 1) / 100 + (y - 1) / 400

/-- A calendar date, as Python's `datetime` at midnight (the script only ever
builds midnight datetimes from `%Y-%m-%d` parsing and day steps). -/
structure Date where
  year : Nat
  month : Nat
  day : Nat
deriving DecidableEq, Repr

/-- The dates representable by Python's `datetime` (MINYEAR..MAXYEAR). -/
def validDate (d : Date) : Prop :=
  1 ≤ d.year ∧ d.year ≤ 9999 ∧ 1 ≤ d.month ∧ d.month ≤ 12 ∧
    1 ≤ d.day ∧ d.day ≤ daysInMonth d.year d.month

instance (d : Date) : Decidable (validDate d) := by
  unfold validDate; infer_instance

/-- Python `datetime` comparison (lexicographic on year, month, day). -/
def dateLe (a b : Date) : Prop :=
  a.year < b.year ∨ (a.year = b.year ∧
    (a.month < b.month ∨ (a.month = b.month ∧ a.day ≤ b.day)))

/-- Strict Python `datetime` comparison. -/
def dateLt (a b : Date) : Prop :=
  a.year < b.year ∨ (a.year = b.year ∧
    (a.month < b.month ∨ (a.month = b.month ∧ a.day < b.day)))

instance (a b : Date) : Decidable (dateLe a b) := by
  unfold dateLe; infer_instance

instance (a b : Date) : Decidable (dateLt a b) := by
  unfold dateLt; infer_instance

/-- `date.toordinal`: day number with 0001-01-01 ↦ 1. -/
def toOrdinal (d : Date) : Nat :=
  daysBeforeYear d.year + daysBeforeMonth d.year d.month + d.day

/-- The next calendar day (`+timedelta(days=1)`). -/
def nextDay (d : Date) : Date :=
  if d.day < daysInMonth d.year d.month then ⟨d.year, d.month, d.day + 1⟩
  else if d.month < 12 then ⟨d.year, d.month + 1, 1⟩
  else ⟨d.year + 1, 1, 1⟩

/-- `d + timedelta(days=n)`, embedded as iterated day successor. -/
def addDays (d : Date) : Nat → Date
  | 0 => d
  | n + 1 => nextDay (addDays d n)

/-- Line 74 of `tours.py`:
`[start_date+timedelta(days=x) for x in range((end_date-start_date+timedelta(days=1)).days)]`.
`(end - start).days` is the ordinal difference; Python's `range` of a
non-positive number is empty, matching `Int.toNat`. -/
def desiredDates (s e : Date) : List Date :=
  (List.range (((toOrdinal e : Int) - (toOrdinal s : Int) + 1).toNat)).map (addDays s)

/-- The decimal digit character of `n` (for `n < 10`). -/
def digitChar (n : Nat) : Char := Char.ofNat (48 + n)

/-- The character list of `datetime.strftime(date, "%Y-%m-%d")`:
zero-padded 4-digit year, 2-digit month, 2-digit day. -/
def formatChars (d : Date) : List Char :=
  [digitChar (d.year / 1000), digitChar (d.year / 100 % 10),
   digitChar (d.year / 10 % 10), digitChar (d.year % 10),
   '-',
   digitChar (d.month / 10), digitChar (d.month % 10),
   '-',
   digitChar (d.day / 10), digitChar (d.day % 10)]

/-- `datetime.strftime(date, INPUT_DATE_FORMAT)` with `INPUT_DATE_FORMAT = "%Y-%m-%d"`. -/
def formatDate (d : Date) : String := String.mk (formatChars d)

/-- A (year, month) pair: the granularity of one upstream availability query. -/
structure MonthKey where
  year : Nat
  month : Nat
deriving DecidableEq, Repr

/-- Months since year 0 of a date's month. -/
def monthIndex (d : Date) : Nat := 12 * d.year + (d.month - 1)

/-- Months since year 0 of a month key. -/
def mkIndex (mk : MonthKey) : Nat := 12 * mk.year + (mk.month - 1)

/-- The month key a date falls in. -/
def monthKeyOf (d : Date) : MonthKey := ⟨d.year, d.month⟩

/-- The month key with the given month index. -/
def monthKeyOfIndex (i : Nat) : MonthKey := ⟨i / 12, i % 12 + 1⟩

/-- Lines 58-59 of `tours.py`:
`rrule.rrule(rrule.MONTHLY, dtstart=datetime(start.year, start.month, 1), until=end_date)`.
The rule enumerates the first-of-month datetimes `dtstart, dtstart+1 month, ...`
that are ≤ `until` (inclusive).  For a valid `e` (whose day is ≥ 1) the
first-of-month of a month is ≤ `e` exactly when its month index is ≤
`monthIndex e`, so the occurrences are the months with index
`monthIndex s .. monthIndex e` and the list is empty when
`monthIndex e < monthIndex s`. -/
def monthsList (s e : Date) : List MonthKey :=
  (List.range (monthIndex e + 1 - monthIndex s)).map
    (fun k => monthKeyOfIndex (monthIndex s + k))

/-- One tour's entry inside a date's `tour_availability_summary_view_by_tour_id`
sub-object; the script reads only `has_reservable`. -/
structure TourEntry where
  has_reservable : Bool
deriving DecidableEq, Repr

/-- A date's per-tour sub-mapping, keyed by tour id (`str(tour_id)` in the JSON;
`str` is injective on integers so we key by the integer itself). -/
def DateEntry : Type := List (Int × TourEntry)

instance : DecidableEq DateEntry := by
  unfold DateEntry; infer_instance

/-- The merged `api_data` dict: date string ↦ per-tour sub-mapping. -/
def Snapshot : Type := List (String × DateEntry)

instance : DecidableEq Snapshot := by
  unfold Snapshot; infer_instance

/-- The error raised by `send_request` on a non-200 status
(`RuntimeError("failedRequest", ...)` carrying the status code and body). -/
structure TransportErr where
  status : Nat
  text : String
deriving DecidableEq, Repr

/-- The exceptions that can escape `get_tour_availabilities`: the transport
`RuntimeError`, or the `KeyError` from `api_data[date_formatted]` when a
requested date is absent from the merged snapshot. -/
inductive ResolveErr where
  | transport (e : TransportErr)
  | keyError (date : String)
deriving DecidableEq, Repr

/-- One `"Tour id {} not found in facility with id {} on {}"` diagnostic print
(line 83), in structured form. -/
structure Diag where
  tourId : Int
  facilityId : Int
  date : String
deriving DecidableEq, Repr

/-- The HTTP response of the monthly-availability endpoint: status code, body
text, and the decoded `facility_availability_summary_view_by_local_date`
object of the JSON payload. -/
structure HttpResp where
  status : Nat
  text : String
  payload : List (String × DateEntry)

/-- The HTTP response of the tour endpoint: status code, body text, and the
decoded `tour_name` field of the JSON payload. -/
structure TourResp where
  status : Nat
  text : String
  tour_name : String

/-- Lines 27-36 (`send_request`) applied to a monthly-availability response:
non-200 raises, 200 returns the decoded payload. -/
def sendRequestAvail (r : HttpResp) : Except TransportErr (List (String × DateEntry)) :=
  if r.status = 200 then .ok r.payload else .error ⟨r.status, r.text⟩

/-- Lines 27-36 (`send_request`) applied to a tour response. -/
def sendRequestTour (r : TourResp) : Except TransportErr String :=
  if r.status = 200 then .ok r.tour_name else .error ⟨r.status, r.text⟩

/-- Python-dict single-key update: replace in place if the key exists,
append at the end otherwise. -/
def snapInsert (k : String) (v : DateEntry) : List (String × DateEntry) → List (String × DateEntry)
  | [] => [(k, v)]
  | (k', v') :: rest => if k' = k then (k, v) :: rest else (k', v') :: snapInsert k v rest

/-- Line 72: `api_data.update(resp[...])` — fold the month's entries into the
accumulated dict, last write wins. -/
def snapUpdate (acc : List (String × DateEntry)) (resp : List (String × DateEntry)) :
    List (String × DateEntry) :=
  resp.foldl (fun a p => snapInsert p.1 p.2 a) acc

/-- Dict lookup `api_data[k]` as an `Option` (`none` is Python's `KeyError`). -/
def lookupDate (snap : List (String × DateEntry)) (k : String) : Option DateEntry :=
  match snap.find? (fun p => p.1 == k) with
  | some p => some p.2
  | none => none

/-- Lookup of `str(tour_id)` in a date's per-tour sub-mapping. -/
def lookupTour (entry : DateEntry) (t : Int) : Option TourEntry :=
  match entry.find? (fun p => p.1 == t) with
  | some p => some p.2
  | none => none

/-- Lines 62-72: issue one monthly query per month key, in order, merging the
payloads into `api_data`; the first non-200 response aborts everything. -/
def fetchMonths (up : MonthKey → HttpResp) :
    List MonthKey → List (String × DateEntry) → Except TransportErr (List (String × DateEntry))
  | [], acc => .ok acc
  | mk :: rest, acc =>
    match sendRequestAvail (up mk) with
    | .error e => .error e
    | .ok resp => fetchMonths up rest (snapUpdate acc resp)

/-- The trace of monthly queries actually sent: every month up to and
including the first one whose response is non-200. -/
def queriesIssued (up : MonthKey → HttpResp) : List MonthKey → List MonthKey
  | [] => []
  | mk :: rest => if (up mk).status = 200 then mk :: queriesIssued up rest else [mk]

/-- Python-dict single-key update for the `availabilities` dict. -/
def dictInsert (k : Int) (v : List String) : List (Int × List String) → List (Int × List String)
  | [] => [(k, v)]
  | (k', v') :: rest => if k' = k then (k, v) :: rest else (k', v') :: dictInsert k v rest

/-- Lines 80-86, the inner date loop for one tour id: for each desired date,
index `api_data[date_formatted]` (KeyError aborts), print a diagnostic if the
tour id is absent from the date's sub-mapping, append the formatted date if
`has_reservable` is true.  Returns the tour's date list and its diagnostics,
both in date order. -/
def processTour (facilityId t : Int) (snap : List (String × DateEntry)) :
    List Date → Except ResolveErr (List String × List Diag)
  | [] => .ok ([], [])
  | d :: ds =>
    let dstr := formatDate d
    match lookupDate snap dstr with
    | none => .error (.keyError dstr)
    | some entry =>
      match processTour facilityId t snap ds with
      | .error e => .error e
      | .ok (res, dgs) =>
        match lookupTour entry t with
        | none => .ok (res, ⟨t, facilityId, dstr⟩ :: dgs)
        | some te => if te.has_reservable then .ok (dstr :: res, dgs) else .ok (res, dgs)

/-- Lines 77-86, the outer tour loop: build the `availabilities` dict one tour
at a time (dict insertion order = first assignment order), accumulating the
printed diagnostics; any exception aborts the whole call. -/
def resolveAll (facilityId : Int) (dates : List Date) (snap : List (String × DateEntry)) :
    List Int → List (Int × List String) → List Diag →
      Except ResolveErr (List (Int × List String) × List Diag)
  | [], dict, diags => .ok (dict, diags)
  | t :: ts, dict, diags =>
    match processTour facilityId t snap dates with
    | .error e => .error e
    | .ok (res, dgs) => resolveAll facilityId dates snap ts (dictInsert t res dict) (diags ++ dgs)

/-- Lines 38-88: `get_tour_availabilities(facility_id, tour_ids, start_date, end_date)`.
The upstream monthly endpoint is the function `up` from month key to HTTP
response (the facility id is baked into the URL). -/
def getTourAvailabilities (facilityId : Int) (tourIds : List Int) (startDate endDate : Date)
    (up : MonthKey → HttpResp) :
    Except ResolveErr (List (Int × List String) × List Diag) :=
  match fetchMonths up (monthsList startDate endDate) [] with
  | .error e => .error (.transport e)
  | .ok snap => resolveAll facilityId (desiredDates startDate endDate) snap tourIds [] []

/-- Lines 90-93: `get_tour_name(tour_id)` — one GET on the tour endpoint,
returning the `tour_name` field. -/
def getTourName (names : Int → TourResp) (t : Int) : Except TransportErr String :=
  sendRequestTour (names t)

/-- The line printed for one tour (lines 98-102). -/
def renderLine (name : String) (dates : List String) : String :=
  if dates.isEmpty then name ++ ": No availabilities :("
  else name ++ ": Available on the following date(s):\n" ++ String.intercalate ", " dates

/-- Lines 95-102: `print_human_readable`.  Iterates the dict in order; for each
tour it first resolves the display name (a transport failure here aborts the
loop) and then prints the tour's line.  Returns the lines actually printed and
the aborting error, if any. -/
def printHumanReadable (names : Int → TourResp) :
    List (Int × List String) → List String × Option TransportErr
  | [] => ([], none)
  | (t, dates) :: rest =>
    match getTourName names t with
    | .error e => ([], some e)
    | .ok name =>
      let out := printHumanReadable names rest
      (renderLine name dates :: out.1, out.2)

/-- How one run of the script ends: `sys.exit(code)` from the normal path, or
an uncaught exception re-raised by the `__main__` handler (lines 158-164). -/
inductive Outcome where
  | exited (code : Nat)
  | crashed (e : ResolveErr)
deriving DecidableEq, Repr

/-- Lines 112-115: `0` if `any(availabilities.values())` (some tour has a
non-empty, hence truthy, list) else `1`. -/
def mainExitCode (dict : List (Int × List String)) : Nat :=
  if dict.any (fun p => !p.2.isEmpty) then 0 else 1

/-- Lines 104-115 and 158-164: run the resolver, render the report, and exit
with `main`'s return code; any exception escapes as a crash. -/
def runMain (facilityId : Int) (tourIds : List Int) (startDate endDate : Date)
    (up : MonthKey → HttpResp) (names : Int → TourResp) : Outcome :=
  match getTourAvailabilities facilityId tourIds startDate endDate up with
  | .error e => .crashed e
  | .ok (dict, _) =>
    match (printHumanReadable names dict).2 with
    | some e => .crashed (.transport e)
    | none => .exited (mainExitCode dict)

/-- Whether, in snapshot `snap`, tour `t` is present with `has_reservable` on
date `d` (the append condition of line 84-86). -/
def isAvail (snap : List (String × DateEntry)) (t : Int) (d : Date) : Bool :=
  match lookupDate snap (formatDate d) with
  | none => false
  | some entry =>
    match lookupTour entry t with
    | none => false
    | some te => te.has_reservable

/-- Whether date `d` is present in the snapshot but tour `t` is absent from its
sub-mapping (the diagnostic condition of lines 82-83). -/
def tourMissing (snap : List (String × DateEntry)) (t : Int) (d : Date) : Bool :=
  match lookupDate snap (formatDate d) with
  | none => false
  | some entry => (lookupTour entry t).isNone

deriving instance DecidableEq for Except

/-! ### Sample inputs used to exercise the embedding on concrete data -/

/-- A March-2024 monthly payload: tour 100 reservable on the 1st only, tour 200
present but never reservable. -/
def marchPayload : List (String × DateEntry) :=
  [("2024-03-01", [(100, ⟨true⟩), (200, ⟨false⟩)]),
   ("2024-03-02", [(100, ⟨false⟩), (200, ⟨false⟩)])]

/-- An upstream that answers every monthly query with `marchPayload`. -/
def sampleUp : MonthKey → HttpResp := fun _ => ⟨200, "", marchPayload⟩

/-- An upstream whose every response is HTTP 500. -/
def sampleUpFail : MonthKey → HttpResp := fun _ => ⟨500, "server error", []⟩

/-- An upstream that answers 200 with an empty date map. -/
def sampleUpEmpty : MonthKey → HttpResp := fun _ => ⟨200, "", []⟩

/-- A tour-name endpoint that always succeeds. -/
def sampleNames : Int → TourResp :=
  fun t => if t = 100 then ⟨200, "", "Tour A"⟩ else ⟨200, "", "Tour B"⟩

/-- A tour-name endpoint that succeeds for tour 100 and fails otherwise. -/
def sampleNamesFail : Int → TourResp :=
  fun t => if t = 100 then ⟨200, "", "Tour A"⟩ else ⟨500, "oops", ""⟩

end Tours


namespace Tours

/-! ### Calendar arithmetic lemmas -/

theorem isLeap_iff (y : Nat) :
    isLeap y = true ↔ (y % 4 = 0 ∧ (y % 100 ≠ 0 ∨ y % 400 = 0)) := by
  unfold isLeap
  simp [Bool.and_eq_true, Bool.or_eq_true]

set_option maxHeartbeats 1600000 in
theorem daysBeforeYear_succ (y : Nat) (hy : 1 ≤ y) :
    daysBeforeYear (y + 1) = daysBeforeYear y + daysInYear y := by
  cases hL : isLeap y with
  | false =>
    have hdiy : daysInYear y = 365 := by simp [daysInYear, hL]
    have hnl : ¬(y % 4 = 0 ∧ (y % 100 ≠ 0 ∨ y % 400 = 0)) := by
      intro hc
      have hc2 := (isLeap_iff y).mpr hc
      rw [hL] at hc2
      exact Bool.false_ne_true hc2
    rw [hdiy]
    unfold daysBeforeYear
    simp only [Nat.add_sub_cancel]
    by_cases h4 : y % 4 = 0
    · by_cases h100 : y % 100 = 0
      · by_cases h400 : y % 400 = 0
        · exact absurd ⟨h4, Or.inr h400⟩ hnl
        · omega
      · exact absurd ⟨h4, Or.inl h100⟩ hnl
    · omega
  | true =>
    have hdiy : daysInYear y = 366 := by simp [daysInYear, hL]
    have h := (isLeap_iff y).mp hL
    rw [hdiy]
    unfold daysBeforeYear
    simp only [Nat.add_sub_cancel]
    rcases h with ⟨h4, h100 | h400⟩ <;> omega

theorem daysBeforeYear_mono {y1 y2 : Nat} (hy1 : 1 ≤ y1) (h : y1 ≤ y2) :
    daysBeforeYear y1 ≤ daysBeforeYear y2 := by
  induction y2, h using Nat.le_induction with
  | base => exact Nat.le_refl _
  | succ y hy ih =>
    have := daysBeforeYear_succ y (Nat.le_trans hy1 hy)
    omega

theorem daysBeforeMonth_succ (y m : Nat) (h1 : 1 ≤ m) (h2 : m ≤ 11) :
    daysBeforeMonth y (m + 1) = daysBeforeMonth y m + daysInMonth y m := by
  cases hL : isLeap y <;> interval_cases m <;>
    simp [daysBeforeMonth, daysInMonth, hL]

theorem daysBeforeMonth_add_le (y m : Nat) (h1 : 1 ≤ m) (h2 : m ≤ 12) :
    daysBeforeMonth y m + daysInMonth y m ≤ daysInYear y := by
  cases hL : isLeap y <;> interval_cases m <;>
    simp [daysBeforeMonth, daysInMonth, daysInYear, hL]

theorem daysBeforeMonth_mono (y : Nat) {m1 m2 : Nat} (h1 : 1 ≤ m1) (hm : m1 < m2)
    (h2 : m2 ≤ 12) : daysBeforeMonth y m1 + daysInMonth y m1 ≤ daysBeforeMonth y m2 := by
  rw [← daysBeforeMonth_succ y m1 h1 (by omega)]
  have key : ∀ j, m1 + 1 ≤ j → j ≤ 12 → daysBeforeMonth y (m1 + 1) ≤ daysBeforeMonth y j := by
    intro j hkj
    induction j, hkj using Nat.le_induction with
    | base => intro _; exact Nat.le_refl _
    | succ j hj2 ih =>
      intro hj12
      have step := daysBeforeMonth_succ y j (by omega) (by omega)
      have := ih (by omega)
      omega
  exact key m2 (by omega) h2

theorem one_le_daysInMonth (y m : Nat) (h1 : 1 ≤ m) (h2 : m ≤ 12) :
    1 ≤ daysInMonth y m := by
  cases hL : isLeap y <;> interval_cases m <;> simp [daysInMonth, hL]

theorem daysInMonth_le_31 (y m : Nat) : daysInMonth y m ≤ 31 := by
  unfold daysInMonth
  split <;> first | omega | (split <;> omega)

theorem toOrdinal_pos {d : Date} (h : validDate d) :
    daysBeforeYear d.year < toOrdinal d := by
  obtain ⟨_, _, _, _, h5, _⟩ := h
  unfold toOrdinal
  omega

theorem toOrdinal_le_year_end {d : Date} (h : validDate d) :
    toOrdinal d ≤ daysBeforeYear d.year + daysInYear d.year := by
  obtain ⟨_, _, h3, h4, _, h6⟩ := h
  have := daysBeforeMonth_add_le d.year d.month h3 h4
  unfold toOrdinal
  omega

theorem toOrdinal_lt_of_dateLt {a b : Date} (ha : validDate a) (hb : validDate b)
    (h : dateLt a b) : toOrdinal a < toOrdinal b := by
  rcases h with h | ⟨hy, h⟩
  · have h1 : toOrdinal a ≤ daysBeforeYear a.year + daysInYear a.year :=
      toOrdinal_le_year_end ha
    have h2 : daysBeforeYear (a.year + 1) = daysBeforeYear a.year + daysInYear a.year :=
      daysBeforeYear_succ a.year ha.1
    have h3 : daysBeforeYear (a.year + 1) ≤ daysBeforeYear b.year :=
      daysBeforeYear_mono (by omega) (by omega)
    have h4 : daysBeforeYear b.year < toOrdinal b := toOrdinal_pos hb
    omega
  · rcases h with h | ⟨hm, h⟩
    · have h1 : daysBeforeMonth b.year a.month + daysInMonth b.year a.month ≤
          daysBeforeMonth b.year b.month :=
        daysBeforeMonth_mono b.year ha.2.2.1 h hb.2.2.2.1
      have h6 : a.day ≤ daysInMonth a.year a.month := ha.2.2.2.2.2
      rw [hy] at h6
      have hb5 : 1 ≤ b.day := hb.2.2.2.2.1
      unfold toOrdinal
      rw [hy]
      omega
    · unfold toOrdinal
      rw [hy, hm]
      omega

theorem dateLt_or_eq_of_dateLe {a b : Date} (h : dateLe a b) : dateLt a b ∨ a = b := by
  obtain ⟨y1, m1, d1⟩ := a
  obtain ⟨y2, m2, d2⟩ := b
  simp only [dateLe, dateLt, Date.mk.injEq] at *
  omega

theorem dateLt_trichotomy (a b : Date) : dateLt a b ∨ a = b ∨ dateLt b a := by
  obtain ⟨y1, m1, d1⟩ := a
  obtain ⟨y2, m2, d2⟩ := b
  simp only [dateLt, Date.mk.injEq]
  omega

theorem toOrdinal_le_of_dateLe {a b : Date} (ha : validDate a) (hb : validDate b)
    (h : dateLe a b) : toOrdinal a ≤ toOrdinal b := by
  rcases dateLt_or_eq_of_dateLe h with h' | h'
  · exact Nat.le_of_lt (toOrdinal_lt_of_dateLt ha hb h')
  · rw [h']

theorem dateLt_of_toOrdinal_lt {a b : Date} (ha : validDate a) (hb : validDate b)
    (h : toOrdinal a < toOrdinal b) : dateLt a b := by
  rcases dateLt_trichotomy a b with h' | h' | h'
  · exact h'
  · rw [h'] at h; omega
  · have := toOrdinal_lt_of_dateLt hb ha h'
    omega

theorem dateLe_refl (a : Date) : dateLe a a := by
  unfold dateLe
  omega

theorem dateLe_of_dateLt {a b : Date} (h : dateLt a b) : dateLe a b := by
  unfold dateLt at h
  unfold dateLe
  omega

theorem dateLe_of_toOrdinal_le {a b : Date} (ha : validDate a) (hb : validDate b)
    (h : toOrdinal a ≤ toOrdinal b) : dateLe a b := by
  rcases dateLt_trichotomy a b with h' | h' | h'
  · exact dateLe_of_dateLt h'
  · rw [h']
    exact dateLe_refl b
  · have := toOrdinal_lt_of_dateLt hb ha h'
    omega

theorem toOrdinal_nextDay {d : Date} (h : validDate d) :
    toOrdinal (nextDay d) = toOrdinal d + 1 := by
  obtain ⟨h1, h2, h3, h4, h5, h6⟩ := h
  unfold nextDay
  split
  · simp only [toOrdinal]
    omega
  · split
    · next hday hmon =>
      have hde : d.day = daysInMonth d.year d.month := by omega
      simp only [toOrdinal]
      rw [daysBeforeMonth_succ d.year d.month h3 (by omega)]
      omega
    · next hday hmon =>
      have hm12 : d.month = 12 := by omega
      have hde : d.day = daysInMonth d.year d.month := by omega
      have hy : daysBeforeYear (d.year + 1) = daysBeforeYear d.year + daysInYear d.year :=
        daysBeforeYear_succ d.year h1
      have hd31 : daysInMonth d.year 12 = 31 := rfl
      have hbm1 : daysBeforeMonth (d.year + 1) 1 = 0 := rfl
      simp only [toOrdinal]
      rw [hm12] at hde ⊢
      rw [hd31] at hde
      rw [hbm1]
      cases hL : isLeap d.year with
      | false =>
        have hbm : daysBeforeMonth d.year 12 = 334 := by simp [daysBeforeMonth, hL]
        have hdiy : daysInYear d.year = 365 := by simp [daysInYear, hL]
        rw [hbm]
        rw [hdiy] at hy
        omega
      | true =>
        have hbm : daysBeforeMonth d.year 12 = 335 := by simp [daysBeforeMonth, hL]
        have hdiy : daysInYear d.year = 366 := by simp [daysInYear, hL]
        rw [hbm]
        rw [hdiy] at hy
        omega

theorem validDate_nextDay {d e : Date} (hd : validDate d) (he : validDate e)
    (hlt : toOrdinal d < toOrdinal e) : validDate (nextDay d) := by
  unfold nextDay
  split
  · next hday =>
    exact ⟨hd.1, hd.2.1, hd.2.2.1, hd.2.2.2.1,
      by show 1 ≤ d.day + 1; omega,
      by show d.day + 1 ≤ daysInMonth d.year d.month; omega⟩
  · split
    · next hday hmon =>
      exact ⟨hd.1, hd.2.1,
        by show 1 ≤ d.month + 1; omega,
        by show d.month + 1 ≤ 12; omega,
        Nat.le_refl 1,
        one_le_daysInMonth d.year (d.month + 1) (by have := hd.2.2.1; omega) (by omega)⟩
    · next hday hmon =>
      have hm12 : d.month = 12 := by have := hd.2.2.2.1; omega
      have hd31 : d.day = 31 := by
        have h6 := hd.2.2.2.2.2
        have h7 := hday
        rw [hm12] at h6 h7
        have h8 : daysInMonth d.year 12 = 31 := rfl
        omega
      have hy9 : d.year ≤ 9998 := by
        by_contra hc
        have hy : d.year = 9999 := by have := hd.2.1; omega
        have h1 : toOrdinal e ≤ daysBeforeYear e.year + daysInYear e.year :=
          toOrdinal_le_year_end he
        have h2 : daysBeforeYear (e.year + 1) = daysBeforeYear e.year + daysInYear e.year :=
          daysBeforeYear_succ e.year he.1
        have h3 : daysBeforeYear (e.year + 1) ≤ daysBeforeYear 10000 :=
          daysBeforeYear_mono (by omega) (by have := he.2.1; omega)
        have h4 : daysBeforeYear 10000 = daysBeforeYear 9999 + daysInYear 9999 :=
          daysBeforeYear_succ 9999 (by omega)
        have h5 : daysInYear 9999 = 365 := by decide
        have h6 : daysBeforeMonth 9999 12 = 334 := by decide
        have h7 : toOrdinal d = daysBeforeYear 9999 + daysBeforeMonth 9999 12 + 31 := by
          unfold toOrdinal
          rw [hy, hm12, hd31]
        omega
      exact ⟨by show 1 ≤ d.year + 1; omega,
        by show d.year + 1 ≤ 9999; omega,
        Nat.le_refl 1,
        by show (1 : Nat) ≤ 12; omega,
        Nat.le_refl 1,
        one_le_daysInMonth (d.year + 1) 1 (Nat.le_refl 1) (by omega)⟩

theorem addDays_valid_ord {s e : Date} (hs : validDate s) (he : validDate e) :
    ∀ i : Nat, toOrdinal s + i ≤ toOrdinal e →
      validDate (addDays s i) ∧ toOrdinal (addDays s i) = toOrdinal s + i := by
  intro i
  induction i with
  | zero => intro _; exact ⟨hs, rfl⟩
  | succ n ih =>
    intro h
    obtain ⟨hv, ho⟩ := ih (by omega)
    have hlt : toOrdinal (addDays s n) < toOrdinal e := by omega
    have hv2 := validDate_nextDay hv he hlt
    have ho2 := toOrdinal_nextDay hv
    refine ⟨hv2, ?_⟩
    show toOrdinal (nextDay (addDays s n)) = toOrdinal s + (n + 1)
    omega

theorem mem_desiredDates {s e d : Date} (hs : validDate s) (he : validDate e)
    (h : d ∈ desiredDates s e) : validDate d ∧ dateLe s d ∧ dateLe d e := by
  unfold desiredDates at h
  obtain ⟨i, hi, rfl⟩ := List.mem_map.mp h
  have hin : i < ((toOrdinal e : Int) - (toOrdinal s : Int) + 1).toNat := List.mem_range.mp hi
  have hile : toOrdinal s + i ≤ toOrdinal e := by omega
  obtain ⟨hv, ho⟩ := addDays_valid_ord hs he i hile
  refine ⟨hv, ?_, ?_⟩
  · exact dateLe_of_toOrdinal_le hs hv (by omega)
  · exact dateLe_of_toOrdinal_le hv he (by omega)

theorem desiredDates_pairwise {s e : Date} (hs : validDate s) (he : validDate e) :
    List.Pairwise dateLt (desiredDates s e) := by
  unfold desiredDates
  rw [List.pairwise_map]
  refine List.Pairwise.imp_of_mem ?_ (List.pairwise_lt_range _)
  intro i j hi hj hij
  have hin : i < ((toOrdinal e : Int) - (toOrdinal s : Int) + 1).toNat := List.mem_range.mp hi
  have hjn : j < ((toOrdinal e : Int) - (toOrdinal s : Int) + 1).toNat := List.mem_range.mp hj
  obtain ⟨hvi, hoi⟩ := addDays_valid_ord hs he i (by omega)
  obtain ⟨hvj, hoj⟩ := addDays_valid_ord hs he j (by omega)
  exact dateLt_of_toOrdinal_lt hvi hvj (by omega)

/-! ### Formatted date strings are ordered like the dates -/

theorem digitChar_lt_digitChar : ∀ b, b < 10 → ∀ a, a < b → digitChar a < digitChar b := by
  decide

theorem pad2_lt {a b : Nat} (r1 r2 : List Char) (hb : b ≤ 99) (hab : a < b) :
    List.Lex (· < ·) (digitChar (a / 10) :: digitChar (a % 10) :: r1)
      (digitChar (b / 10) :: digitChar (b % 10) :: r2) := by
  rcases Nat.lt_or_ge (a / 10) (b / 10) with h | h
  · exact List.Lex.rel (digitChar_lt_digitChar (b / 10) (by omega) (a / 10) h)
  · have h2 : a / 10 = b / 10 := by omega
    rw [h2]
    exact List.Lex.cons
      (List.Lex.rel (digitChar_lt_digitChar (b % 10) (by omega) (a % 10) (by omega)))

theorem pad4_lt {a b : Nat} (r1 r2 : List Char) (hb : b ≤ 9999) (hab : a < b) :
    List.Lex (· < ·)
      (digitChar (a / 1000) :: digitChar (a / 100 % 10) :: digitChar (a / 10 % 10) ::
        digitChar (a % 10) :: r1)
      (digitChar (b / 1000) :: digitChar (b / 100 % 10) :: digitChar (b / 10 % 10) ::
        digitChar (b % 10) :: r2) := by
  rcases Nat.lt_or_ge (a / 1000) (b / 1000) with h | h
  · exact List.Lex.rel (digitChar_lt_digitChar (b / 1000) (by omega) (a / 1000) h)
  · have e1 : a / 1000 = b / 1000 := by omega
    rw [e1]
    rcases Nat.lt_or_ge (a / 100 % 10) (b / 100 % 10) with h' | h'
    · exact List.Lex.cons
        (List.Lex.rel (digitChar_lt_digitChar (b / 100 % 10) (by omega) (a / 100 % 10) h'))
    · have e2 : a / 100 % 10 = b / 100 % 10 := by omega
      rw [e2]
      rcases Nat.lt_or_ge (a / 10 % 10) (b / 10 % 10) with h'' | h''
      · exact List.Lex.cons (List.Lex.cons
          (List.Lex.rel (digitChar_lt_digitChar (b / 10 % 10) (by omega) (a / 10 % 10) h'')))
      · have e3 : a / 10 % 10 = b / 10 % 10 := by omega
        rw [e3]
        have e4 : a % 10 < b % 10 := by omega
        exact List.Lex.cons (List.Lex.cons (List.Lex.cons
          (List.Lex.rel (digitChar_lt_digitChar (b % 10) (by omega) (a % 10) e4))))

theorem formatChars_lt {d1 d2 : Date} (_h1 : validDate d1) (h2 : validDate d2)
    (h : dateLt d1 d2) : List.Lex (· < ·) (formatChars d1) (formatChars d2) := by
  unfold formatChars
  rcases h with hy | ⟨hy, h⟩
  · exact pad4_lt _ _ h2.2.1 hy
  · rw [hy]
    apply List.Lex.cons
    apply List.Lex.cons
    apply List.Lex.cons
    apply List.Lex.cons
    apply List.Lex.cons
    rcases h with hm | ⟨hm, h⟩
    · exact pad2_lt _ _ (by have := h2.2.2.2.1; omega) hm
    · rw [hm]
      apply List.Lex.cons
      apply List.Lex.cons
      apply List.Lex.cons
      exact pad2_lt _ _
        (by have := h2.2.2.2.2.2; have := daysInMonth_le_31 d2.year d2.month; omega) h

theorem formatDate_lt {d1 d2 : Date} (h1 : validDate d1) (h2 : validDate d2)
    (h : dateLt d1 d2) : formatDate d1 < formatDate d2 := by
  rw [String.lt_iff_toList_lt]
  show List.Lex (· < ·) (formatDate d1).toList (formatDate d2).toList
  exact formatChars_lt h1 h2 h

/-! ### Resolver lemmas -/

theorem processTour_ok_eq (facilityId t : Int) (snap : List (String × DateEntry))
    (dates : List Date)
    (h : ∀ d ∈ dates, (lookupDate snap (formatDate d)).isSome = true) :
    processTour facilityId t snap dates =
      .ok ((dates.filter (isAvail snap t)).map formatDate,
        (dates.filter (tourMissing snap t)).map (fun d => ⟨t, facilityId, formatDate d⟩)) := by
  induction dates with
  | nil => rfl
  | cons d ds ih =>
    have hd := h d (List.mem_cons_self d ds)
    obtain ⟨entry, hentry⟩ := Option.isSome_iff_exists.mp hd
    have ihh := ih (fun x hx => h x (List.mem_cons_of_mem d hx))
    rcases hlook : lookupTour entry t with _ | te
    · have pa : isAvail snap t d = false := by simp [isAvail, hentry, hlook]
      have pm : tourMissing snap t d = true := by simp [tourMissing, hentry, hlook]
      simp [processTour, hentry, hlook, ihh, List.filter_cons, pa, pm]
    · rcases hres : te.has_reservable with _ | _
      · have pa : isAvail snap t d = false := by simp [isAvail, hentry, hlook, hres]
        have pm : tourMissing snap t d = false := by simp [tourMissing, hentry, hlook]
        simp [processTour, hentry, hlook, hres, ihh, List.filter_cons, pa, pm]
      · have pa : isAvail snap t d = true := by simp [isAvail, hentry, hlook, hres]
        have pm : tourMissing snap t d = false := by simp [tourMissing, hentry, hlook]
        simp [processTour, hentry, hlook, hres, ihh, List.filter_cons, pa, pm]

theorem processTour_err_eq (facilityId t : Int) (snap : List (String × DateEntry))
    (dates : List Date) (d0 : Date)
    (hfind : dates.find? (fun d => (lookupDate snap (formatDate d)).isNone) = some d0) :
    processTour facilityId t snap dates = .error (.keyError (formatDate d0)) := by
  induction dates with
  | nil => simp [List.find?] at hfind
  | cons d ds ih =>
    rcases hld : lookupDate snap (formatDate d) with _ | entry
    · simp only [List.find?, hld, Option.isNone_none] at hfind
      have hde : d = d0 := by simpa using hfind
      subst hde
      simp [processTour, hld]
    · simp only [List.find?, hld, Option.isNone_some] at hfind
      have := ih hfind
      simp [processTour, hld, this]

theorem dictInsert_mem {k : Int} {v : List String} {d : List (Int × List String)}
    {p : Int × List String} (h : p ∈ dictInsert k v d) : p = (k, v) ∨ p ∈ d := by
  induction d with
  | nil => simpa [dictInsert] using h
  | cons q rest ih =>
    rcases q with ⟨k', v'⟩
    unfold dictInsert at h
    by_cases hk : k' = k
    · rw [if_pos hk] at h
      rcases List.mem_cons.mp h with h' | h'
      · left; exact h'
      · right; exact List.mem_cons_of_mem _ h'
    · rw [if_neg hk] at h
      rcases List.mem_cons.mp h with h' | h'
      · right; rw [h']; exact List.mem_cons_self _ _
      · rcases ih h' with h'' | h''
        · left; exact h''
        · right; exact List.mem_cons_of_mem _ h''

theorem dictInsert_not_mem {k : Int} {v : List String} {d : List (Int × List String)}
    (h : k ∉ d.map Prod.fst) : dictInsert k v d = d ++ [(k, v)] := by
  induction d with
  | nil => rfl
  | cons q rest ih =>
    rcases q with ⟨k', v'⟩
    simp only [List.map_cons, List.mem_cons] at h
    push_neg at h
    unfold dictInsert
    rw [if_neg (fun he => h.1 he.symm)]
    rw [ih h.2]
    rfl

theorem resolveAll_cons_ok {facilityId t : Int} {dates : List Date}
    {snap : List (String × DateEntry)} {ts : List Int}
    {dict0 : List (Int × List String)} {diags0 : List Diag}
    {res : List String} {dgs : List Diag}
    (hpt : processTour facilityId t snap dates = .ok (res, dgs)) :
    resolveAll facilityId dates snap (t :: ts) dict0 diags0 =
      resolveAll facilityId dates snap ts (dictInsert t res dict0) (diags0 ++ dgs) := by
  rw [resolveAll, hpt]

theorem resolveAll_cons_err {facilityId t : Int} {dates : List Date}
    {snap : List (String × DateEntry)} {ts : List Int}
    {dict0 : List (Int × List String)} {diags0 : List Diag} {e : ResolveErr}
    (hpt : processTour facilityId t snap dates = .error e) :
    resolveAll facilityId dates snap (t :: ts) dict0 diags0 = .error e := by
  rw [resolveAll, hpt]

theorem resolveAll_ok_mem {facilityId : Int} {dates : List Date}
    {snap : List (String × DateEntry)} :
    ∀ (tours : List Int) (dict0 : List (Int × List String)) (diags0 : List Diag)
      (dict : List (Int × List String)) (diags : List Diag),
      resolveAll facilityId dates snap tours dict0 diags0 = .ok (dict, diags) →
      ∀ p ∈ dict, p ∈ dict0 ∨
        ∃ dgs, processTour facilityId p.1 snap dates = .ok (p.2, dgs) := by
  intro tours
  induction tours with
  | nil =>
    intro d0 g0 dict diags h p hp
    simp only [resolveAll, Except.ok.injEq, Prod.mk.injEq] at h
    left
    rw [h.1]
    exact hp
  | cons t ts ih =>
    intro d0 g0 dict diags h p hp
    rcases hpt : processTour facilityId t snap dates with e | pr
    · rw [resolveAll_cons_err hpt] at h
      cases h
    · rcases pr with ⟨res, dgs⟩
      rw [resolveAll_cons_ok hpt] at h
      rcases ih _ _ _ _ h p hp with hin | hex
      · rcases dictInsert_mem hin with he | hin0
        · right
          refine ⟨dgs, ?_⟩
          rw [he]
          exact hpt
        · left; exact hin0
      · right; exact hex

theorem resolveAll_keys {facilityId : Int} {dates : List Date}
    {snap : List (String × DateEntry)} :
    ∀ (tours : List Int) (dict0 : List (Int × List String)) (diags0 : List Diag)
      (dict : List (Int × List String)) (diags : List Diag),
      tours.Nodup → (∀ x ∈ tours, x ∉ dict0.map Prod.fst) →
      resolveAll facilityId dates snap tours dict0 diags0 = .ok (dict, diags) →
      dict.map Prod.fst = dict0.map Prod.fst ++ tours := by
  intro tours
  induction tours with
  | nil =>
    intro d0 g0 dict diags _ _ h
    simp only [resolveAll, Except.ok.injEq, Prod.mk.injEq] at h
    rw [← h.1]
    simp
  | cons t ts ih =>
    intro d0 g0 dict diags hnd hdisj h
    rcases hpt : processTour facilityId t snap dates with e | pr
    · rw [resolveAll_cons_err hpt] at h
      cases h
    · rcases pr with ⟨res, dgs⟩
      rw [resolveAll_cons_ok hpt] at h
      have hins : dictInsert t res d0 = d0 ++ [(t, res)] :=
        dictInsert_not_mem (hdisj t (List.mem_cons_self t ts))
      rw [hins] at h
      have hnd2 : ts.Nodup := (List.nodup_cons.mp hnd).2
      have htn : t ∉ ts := (List.nodup_cons.mp hnd).1
      have hdisj2 : ∀ x ∈ ts, x ∉ (d0 ++ [(t, res)]).map Prod.fst := by
        intro x hx
        simp only [List.map_append, List.mem_append, List.map_cons, List.map_nil,
          List.mem_singleton]
        push_neg
        refine ⟨hdisj x (List.mem_cons_of_mem t hx), ?_⟩
        intro he
        exact htn (he ▸ hx)
      have := ih _ _ _ _ hnd2 hdisj2 h
      rw [this]
      simp

theorem resolveAll_nil_dates (facilityId : Int) (snap : List (String × DateEntry)) :
    ∀ (tours : List Int) (dict0 : List (Int × List String)) (diags0 : List Diag),
      resolveAll facilityId [] snap tours dict0 diags0 =
        .ok (tours.foldl (fun dd t => dictInsert t [] dd) dict0, diags0) := by
  intro tours
  induction tours with
  | nil => intro d0 g0; rfl
  | cons t ts ih =>
    intro d0 g0
    have hpt : processTour facilityId t snap [] = .ok ([], []) := rfl
    rw [resolveAll_cons_ok hpt]
    rw [List.append_nil]
    rw [ih]
    rfl

theorem foldl_dictInsert_eq :
    ∀ (tours : List Int) (dict0 : List (Int × List String)),
      tours.Nodup → (∀ x ∈ tours, x ∉ dict0.map Prod.fst) →
      tours.foldl (fun dd t => dictInsert t [] dd) dict0 =
        dict0 ++ tours.map (fun t => (t, ([] : List String))) := by
  intro tours
  induction tours with
  | nil => intro d0 _ _; simp
  | cons t ts ih =>
    intro d0 hnd hdisj
    simp only [List.foldl_cons]
    rw [dictInsert_not_mem (hdisj t (List.mem_cons_self t ts))]
    have hnd2 : ts.Nodup := (List.nodup_cons.mp hnd).2
    have htn : t ∉ ts := (List.nodup_cons.mp hnd).1
    rw [ih (d0 ++ [(t, [])]) hnd2 ?_]
    · simp
    · intro x hx
      simp only [List.map_append, List.mem_append, List.map_cons, List.map_nil,
        List.mem_singleton]
      push_neg
      refine ⟨hdisj x (List.mem_cons_of_mem t hx), ?_⟩
      intro he
      exact htn (he ▸ hx)

theorem fetchMonths_congr {up1 up2 : MonthKey → HttpResp} (h : ∀ mk, up1 mk = up2 mk) :
    ∀ (mks : List MonthKey) (acc : List (String × DateEntry)),
      fetchMonths up1 mks acc = fetchMonths up2 mks acc := by
  intro mks
  induction mks with
  | nil => intro acc; rfl
  | cons mk rest ih =>
    intro acc
    rw [fetchMonths, fetchMonths, h mk]
    rcases hs : sendRequestAvail (up2 mk) with e | resp
    · rfl
    · exact ih _

theorem fetchMonths_error {up : MonthKey → HttpResp} :
    ∀ (mks : List MonthKey) (acc : List (String × DateEntry)),
      (∃ mk ∈ mks, (up mk).status ≠ 200) →
      ∃ te, fetchMonths up mks acc = .error te := by
  intro mks
  induction mks with
  | nil =>
    intro acc h
    obtain ⟨mk, hmem, _⟩ := h
    exact absurd hmem (List.not_mem_nil mk)
  | cons mk rest ih =>
    intro acc h
    by_cases hst : (up mk).status = 200
    · have hsend : sendRequestAvail (up mk) = .ok (up mk).payload := by
        simp [sendRequestAvail, hst]
      obtain ⟨mk', hmem, hne⟩ := h
      have hmr : mk' ∈ rest := by
        rcases List.mem_cons.mp hmem with he | h'
        · exact absurd (he ▸ hst) hne
        · exact h'
      obtain ⟨te, hte⟩ := ih (snapUpdate acc (up mk).payload) ⟨mk', hmr, hne⟩
      refine ⟨te, ?_⟩
      rw [fetchMonths, hsend]
      exact hte
    · refine ⟨⟨(up mk).status, (up mk).text⟩, ?_⟩
      rw [fetchMonths]
      simp [sendRequestAvail, hst]

theorem queriesIssued_append (up : MonthKey → HttpResp) :
    ∀ mks : List MonthKey, ∃ rest, queriesIssued up mks ++ rest = mks := by
  intro mks
  induction mks with
  | nil => exact ⟨[], rfl⟩
  | cons mk rest ih =>
    by_cases hst : (up mk).status = 200
    · obtain ⟨r, hr⟩ := ih
      refine ⟨r, ?_⟩
      rw [queriesIssued, if_pos hst, List.cons_append, hr]
    · refine ⟨rest, ?_⟩
      rw [queriesIssued, if_neg hst]
      rfl

theorem queriesIssued_all_ok {up : MonthKey → HttpResp} :
    ∀ mks : List MonthKey, (∀ mk ∈ mks, (up mk).status = 200) →
      queriesIssued up mks = mks := by
  intro mks
  induction mks with
  | nil => intro _; rfl
  | cons mk rest ih =>
    intro h
    rw [queriesIssued, if_pos (h mk (List.mem_cons_self mk rest))]
    rw [ih (fun x hx => h x (List.mem_cons_of_mem mk hx))]

theorem mkIndex_monthKeyOfIndex (i : Nat) : mkIndex (monthKeyOfIndex i) = i := by
  unfold mkIndex monthKeyOfIndex
  show 12 * (i / 12) + (i % 12 + 1 - 1) = i
  omega

theorem monthsList_nodup (s e : Date) : (monthsList s e).Nodup := by
  unfold monthsList
  apply List.Nodup.map ?_ (List.nodup_range _)
  intro a b hab
  have h := congrArg mkIndex hab
  rw [mkIndex_monthKeyOfIndex, mkIndex_monthKeyOfIndex] at h
  omega

theorem monthsList_pairwise (s e : Date) :
    List.Pairwise (fun a b => mkIndex a < mkIndex b) (monthsList s e) := by
  unfold monthsList
  rw [List.pairwise_map]
  refine List.Pairwise.imp_of_mem ?_ (List.pairwise_lt_range _)
  intro a b _ _ hab
  rw [mkIndex_monthKeyOfIndex, mkIndex_monthKeyOfIndex]
  omega

theorem monthIndex_le_of_dateLe {a b : Date} (ha : validDate a) (hb : validDate b)
    (h : dateLe a b) : monthIndex a ≤ monthIndex b := by
  have ha3 := ha.2.2.1
  have ha4 := ha.2.2.2.1
  have hb3 := hb.2.2.1
  have hb4 := hb.2.2.2.1
  unfold dateLe at h
  unfold monthIndex
  omega

theorem monthsList_length {s e : Date} (hs : validDate s) (he : validDate e)
    (h : dateLe s e) :
    (monthsList s e).length = monthIndex e - monthIndex s + 1 := by
  unfold monthsList
  rw [List.length_map, List.length_range]
  have := monthIndex_le_of_dateLe hs he h
  omega

theorem mem_monthsList_iff {s e : Date} (hs : validDate s) (he : validDate e)
    (hle : dateLe s e) (mk : MonthKey) :
    mk ∈ monthsList s e ↔
      ∃ d, validDate d ∧ dateLe s d ∧ dateLe d e ∧ monthKeyOf d = mk := by
  have hs3 := hs.2.2.1
  have hs4 := hs.2.2.2.1
  have he3 := he.2.2.1
  have he4 := he.2.2.2.1
  constructor
  · intro hmem
    unfold monthsList at hmem
    obtain ⟨k, hk, rfl⟩ := List.mem_map.mp hmem
    have hkr := List.mem_range.mp hk
    have hcnt : monthIndex s ≤ monthIndex e := monthIndex_le_of_dateLe hs he hle
    have hile : monthIndex s + k ≤ monthIndex e := by omega
    by_cases hk0 : k = 0
    · subst hk0
      refine ⟨s, hs, dateLe_refl s, hle, ?_⟩
      unfold monthKeyOf monthKeyOfIndex monthIndex
      have h1 : (12 * s.year + (s.month - 1) + 0) / 12 = s.year := by omega
      have h2 : (12 * s.year + (s.month - 1) + 0) % 12 + 1 = s.month := by omega
      rw [h1, h2]
    · have hms : monthIndex s = 12 * s.year + (s.month - 1) := rfl
      have hme : monthIndex e = 12 * e.year + (e.month - 1) := rfl
      have hidx1 : monthIndex s < monthIndex s + k := by omega
      have hy1 : s.year ≤ (monthIndex s + k) / 12 := by omega
      have hy2 : (monthIndex s + k) / 12 ≤ e.year := by omega
      refine ⟨⟨(monthIndex s + k) / 12, (monthIndex s + k) % 12 + 1, 1⟩, ?_, ?_, ?_, ?_⟩
      · refine ⟨?_, ?_, ?_, ?_, Nat.le_refl 1, ?_⟩
        · show 1 ≤ (monthIndex s + k) / 12
          have := hs.1
          omega
        · show (monthIndex s + k) / 12 ≤ 9999
          have := he.2.1
          omega
        · show 1 ≤ (monthIndex s + k) % 12 + 1
          omega
        · show (monthIndex s + k) % 12 + 1 ≤ 12
          omega
        · exact one_le_daysInMonth ((monthIndex s + k) / 12)
            ((monthIndex s + k) % 12 + 1) (by omega) (by omega)
      · show s.year < (monthIndex s + k) / 12 ∨ (s.year = (monthIndex s + k) / 12 ∧
          (s.month < (monthIndex s + k) % 12 + 1 ∨
            (s.month = (monthIndex s + k) % 12 + 1 ∧ s.day ≤ 1)))
        omega
      · show (monthIndex s + k) / 12 < e.year ∨ ((monthIndex s + k) / 12 = e.year ∧
          ((monthIndex s + k) % 12 + 1 < e.month ∨
            ((monthIndex s + k) % 12 + 1 = e.month ∧ 1 ≤ e.day)))
        have he5 := he.2.2.2.2.1
        omega
      · rfl
  · rintro ⟨d, hvd, hsd, hde, rfl⟩
    unfold monthsList
    rw [List.mem_map]
    have h1 := monthIndex_le_of_dateLe hs hvd hsd
    have h2 := monthIndex_le_of_dateLe hvd he hde
    refine ⟨monthIndex d - monthIndex s, ?_, ?_⟩
    · rw [List.mem_range]; omega
    · have he2 : monthIndex s + (monthIndex d - monthIndex s) = monthIndex d := by omega
      rw [he2]
      unfold monthKeyOfIndex monthKeyOf monthIndex
      have hm1 := hvd.2.2.1
      have hm2 := hvd.2.2.2.1
      have hy : (12 * d.year + (d.month - 1)) / 12 = d.year := by omega
      have hm : (12 * d.year + (d.month - 1)) % 12 + 1 = d.month := by omega
      rw [hy, hm]

/-! ### Renderer lemmas -/

theorem printHumanReadable_eq (names : Int → TourResp) :
    ∀ dict : List (Int × List String),
      printHumanReadable names dict =
        ((dict.takeWhile (fun p => (names p.1).status == 200)).map
            (fun p => renderLine (names p.1).tour_name p.2),
          match dict.dropWhile (fun p => (names p.1).status == 200) with
          | [] => none
          | p :: _ => some ⟨(names p.1).status, (names p.1).text⟩) := by
  intro dict
  induction dict with
  | nil => rfl
  | cons p rest ih =>
    rcases p with ⟨t, dates⟩
    by_cases hst : (names t).status = 200
    · have hb : ((names t).status == 200) = true := by simp [hst]
      have hgn : getTourName names t = .ok (names t).tour_name := by
        simp [getTourName, sendRequestTour, hst]
      simp only [printHumanReadable, hgn, ih]
      rw [List.takeWhile_cons, List.dropWhile_cons]
      simp [hb]
    · have hb : ((names t).status == 200) = false := by simp [hst]
      have hgn : getTourName names t = .error ⟨(names t).status, (names t).text⟩ := by
        simp [getTourName, sendRequestTour, hst]
      simp only [printHumanReadable, hgn]
      rw [List.takeWhile_cons, List.dropWhile_cons]
      simp [hb]

end Tours

namespace Tours

theorem processTour_ok_dates {facilityId t : Int} {snap : List (String × DateEntry)} :
    ∀ (dates : List Date) (pr : List String × List Diag),
      processTour facilityId t snap dates = .ok pr →
      ∀ d ∈ dates, (lookupDate snap (formatDate d)).isSome = true := by
  intro dates
  induction dates with
  | nil => intro pr _ d hd; cases hd
  | cons d0 ds ih =>
    intro pr h d hd
    rcases hld : lookupDate snap (formatDate d0) with _ | entry
    · simp [processTour, hld] at h
    · rcases List.mem_cons.mp hd with he | hmem
      · rw [he, hld]
        rfl
      · rcases hds : processTour facilityId t snap ds with e | pr2
        · simp [processTour, hld, hds] at h
        · exact ih pr2 hds d hmem

theorem mainExitCode_zero_iff (dict : List (Int × List String)) :
    mainExitCode dict = 0 ↔ ∃ p ∈ dict, p.2 ≠ [] := by
  unfold mainExitCode
  rcases hany : dict.any (fun p => !p.2.isEmpty) with _ | _
  · have hne : ¬∃ p ∈ dict, p.2 ≠ [] := by
      rintro ⟨p, hp, hne⟩
      have hfalse := (List.any_eq_false.mp hany) p hp
      simp at hfalse
      exact hne hfalse
    simp [hne]
  · have hyes : ∃ p ∈ dict, p.2 ≠ [] := by
      obtain ⟨p, hp, hb⟩ := List.any_eq_true.mp hany
      refine ⟨p, hp, ?_⟩
      simpa using hb
    simp [hyes]

theorem mainExitCode_zero_or_one (dict : List (Int × List String)) :
    mainExitCode dict = 0 ∨ mainExitCode dict = 1 := by
  unfold mainExitCode
  split
  · left; rfl
  · right; rfl

/-! ### Claim theorems -/

/-- C1 (counterexample): the claim says a date inside the range that is absent
from the merged monthly snapshot does not crash resolution and is treated as
"tour not found" (one diagnostic, date omitted, everything else proceeds).  At
the concrete input below — range 2024-03-01..2024-03-01, one requested tour,
upstream returning an empty month — the code instead aborts the whole
resolution with the KeyError from `api_data[date_formatted]` (line 82), and in
particular does not return the result the claim predicts. -/
theorem c1_counterexample :
    getTourAvailabilities 1 [100] ⟨2024, 3, 1⟩ ⟨2024, 3, 1⟩ sampleUpEmpty =
      .error (.keyError "2024-03-01") ∧
    getTourAvailabilities 1 [100] ⟨2024, 3, 1⟩ ⟨2024, 3, 1⟩ sampleUpEmpty ≠
      .ok ([(100, [])], [⟨100, 1, "2024-03-01"⟩]) := by
  constructor
  · decide
  · decide

/-- C1 (amended): if the monthly queries succeed but some date of the
enumerated range is absent from the merged snapshot, and at least one tour is
requested, then resolution crashes: `get_tour_availabilities` aborts with the
KeyError raised for the first missing date, no result is produced, and no
per-(tour, date) degradation happens. -/
theorem c1_missing_date_aborts (facilityId t : Int) (ts : List Int) (s e : Date)
    (up : MonthKey → HttpResp) (snap : List (String × DateEntry)) (d0 : Date)
    (hfetch : fetchMonths up (monthsList s e) [] = .ok snap)
    (hfind : (desiredDates s e).find?
        (fun d => (lookupDate snap (formatDate d)).isNone) = some d0) :
    getTourAvailabilities facilityId (t :: ts) s e up =
      .error (.keyError (formatDate d0)) := by
  unfold getTourAvailabilities
  rw [hfetch]
  exact resolveAll_cons_err (processTour_err_eq facilityId t snap (desiredDates s e) d0 hfind)

/-- C1 witness: the amended theorem applied at the concrete counterexample
input from above. -/
theorem c1_missing_date_aborts_witness :
    getTourAvailabilities 1 [100] ⟨2024, 3, 1⟩ ⟨2024, 3, 1⟩ sampleUpEmpty =
      .error (.keyError (formatDate ⟨2024, 3, 1⟩)) :=
  c1_missing_date_aborts 1 100 [] ⟨2024, 3, 1⟩ ⟨2024, 3, 1⟩ sampleUpEmpty [] ⟨2024, 3, 1⟩
    (by decide) (by decide)

/-- C2: for a valid range with start ≤ end, the resolver issues exactly one
monthly query per distinct (year, month) pair touched by the range, in
chronological order: when every response is 200 the issued-query trace equals
the month list, whose length is the number of months spanned, which is
strictly increasing in month index (hence has no repeats), and whose members
are exactly the month keys of the valid dates lying inside the range. -/
theorem c2_one_query_per_month (s e : Date) (up : MonthKey → HttpResp)
    (hs : validDate s) (he : validDate e) (hle : dateLe s e)
    (hok : ∀ mk ∈ monthsList s e, (up mk).status = 200) :
    queriesIssued up (monthsList s e) = monthsList s e ∧
    (monthsList s e).length = monthIndex e - monthIndex s + 1 ∧
    List.Pairwise (fun a b => mkIndex a < mkIndex b) (monthsList s e) ∧
    (∀ mk, mk ∈ monthsList s e ↔
      ∃ d, validDate d ∧ dateLe s d ∧ dateLe d e ∧ monthKeyOf d = mk) :=
  ⟨queriesIssued_all_ok _ hok, monthsList_length hs he hle, monthsList_pairwise s e,
    fun mk => mem_monthsList_iff hs he hle mk⟩

/-- C2 witness: the theorem applied to the range 2024-03-30..2024-04-02
(spanning March and April 2024) against an all-200 upstream. -/
theorem c2_one_query_per_month_witness :
    queriesIssued sampleUp (monthsList ⟨2024, 3, 30⟩ ⟨2024, 4, 2⟩) =
      monthsList ⟨2024, 3, 30⟩ ⟨2024, 4, 2⟩ ∧
    (monthsList ⟨2024, 3, 30⟩ ⟨2024, 4, 2⟩).length =
      monthIndex ⟨2024, 4, 2⟩ - monthIndex ⟨2024, 3, 30⟩ + 1 ∧
    List.Pairwise (fun a b => mkIndex a < mkIndex b)
      (monthsList ⟨2024, 3, 30⟩ ⟨2024, 4, 2⟩) ∧
    (∀ mk, mk ∈ monthsList ⟨2024, 3, 30⟩ ⟨2024, 4, 2⟩ ↔
      ∃ d, validDate d ∧ dateLe ⟨2024, 3, 30⟩ d ∧ dateLe d ⟨2024, 4, 2⟩ ∧
        monthKeyOf d = mk) :=
  c2_one_query_per_month ⟨2024, 3, 30⟩ ⟨2024, 4, 2⟩ sampleUp
    (by decide) (by decide) (by decide) (by intro mk _; rfl)

/-- C3: whenever `get_tour_availabilities` returns a result for a duplicate-free
request list, the result dictionary has exactly one entry per requested tour
id, keyed in request order (its key list equals the request list); each value
is a (possibly empty) list by construction. -/
theorem c3_one_entry_per_tour (facilityId : Int) (tourIds : List Int) (s e : Date)
    (up : MonthKey → HttpResp) (dict : List (Int × List String)) (diags : List Diag)
    (hnd : tourIds.Nodup)
    (hok : getTourAvailabilities facilityId tourIds s e up = .ok (dict, diags)) :
    dict.map Prod.fst = tourIds := by
  unfold getTourAvailabilities at hok
  rcases hf : fetchMonths up (monthsList s e) [] with te | snap
  · rw [hf] at hok; cases hok
  · rw [hf] at hok
    have h := resolveAll_keys tourIds [] [] dict diags hnd (by intro x hx; simp) hok
    simpa using h

/-- C3 witness: a concrete two-tour request; the key list of the result equals
the request list. -/
theorem c3_one_entry_per_tour_witness :
    (List.map Prod.fst [((100 : Int), ["2024-03-01"]), (200, ([] : List String))]) =
      [100, 200] :=
  c3_one_entry_per_tour 1 [100, 200] ⟨2024, 3, 1⟩ ⟨2024, 3, 2⟩ sampleUp
    [(100, ["2024-03-01"]), (200, [])]
    [] (by decide) (by decide)

/-- C4: for one tour over the enumerated dates of the range, when every
enumerated date is present in the snapshot the inner loop returns exactly: the
formatted dates (in chronological enumeration order, since `filter` preserves
the order of `desiredDates`) of the dates on which the tour id is present with
`has_reservable = true`, and one diagnostic per date on which the date entry
exists but the tour id is absent; dates with the tour id present and the flag
false contribute neither. -/
theorem c4_reservable_projection (facilityId t : Int) (s e : Date)
    (snap : List (String × DateEntry))
    (h : ∀ d ∈ desiredDates s e, (lookupDate snap (formatDate d)).isSome = true) :
    processTour facilityId t snap (desiredDates s e) =
      .ok (((desiredDates s e).filter (isAvail snap t)).map formatDate,
        ((desiredDates s e).filter (tourMissing snap t)).map
          (fun d => ⟨t, facilityId, formatDate d⟩)) :=
  processTour_ok_eq facilityId t snap (desiredDates s e) h

/-- C4 witness: tour 200 over 2024-03-01..2024-03-02 against the sample
snapshot (present with flag false on both days for tour 200): no dates, no
diagnostics; evaluated concretely through the theorem. -/
theorem c4_reservable_projection_witness :
    processTour 1 200 marchPayload (desiredDates ⟨2024, 3, 1⟩ ⟨2024, 3, 2⟩) =
      .ok (((desiredDates ⟨2024, 3, 1⟩ ⟨2024, 3, 2⟩).filter
          (isAvail marchPayload 200)).map formatDate,
        ((desiredDates ⟨2024, 3, 1⟩ ⟨2024, 3, 2⟩).filter
          (tourMissing marchPayload 200)).map
          (fun d => ⟨200, 1, formatDate d⟩)) :=
  c4_reservable_projection 1 200 ⟨2024, 3, 1⟩ ⟨2024, 3, 2⟩ marchPayload (by decide)

/-- C5: when resolution returns a result and rendering raises no transport
error, the process exits 0 iff some requested tour has a non-empty date list,
and exits 1 iff no tour does. -/
theorem c5_exit_code (facilityId : Int) (tourIds : List Int) (s e : Date)
    (up : MonthKey → HttpResp) (names : Int → TourResp)
    (dict : List (Int × List String)) (diags : List Diag)
    (hok : getTourAvailabilities facilityId tourIds s e up = .ok (dict, diags))
    (hren : (printHumanReadable names dict).2 = none) :
    (runMain facilityId tourIds s e up names = .exited 0 ↔ ∃ p ∈ dict, p.2 ≠ []) ∧
    (runMain facilityId tourIds s e up names = .exited 1 ↔ ¬∃ p ∈ dict, p.2 ≠ []) := by
  have hrm : runMain facilityId tourIds s e up names = .exited (mainExitCode dict) := by
    unfold runMain
    rw [hok]
    show (match (printHumanReadable names dict).2 with
      | some err => Outcome.crashed (.transport err)
      | none => Outcome.exited (mainExitCode dict)) = Outcome.exited (mainExitCode dict)
    rw [hren]
  rw [hrm]
  constructor
  · constructor
    · intro h0
      have : mainExitCode dict = 0 := by
        simpa using h0
      exact (mainExitCode_zero_iff dict).mp this
    · intro hex
      rw [(mainExitCode_zero_iff dict).mpr hex]
  · constructor
    · intro h1
      have hm1 : mainExitCode dict = 1 := by
        simpa using h1
      intro hex
      rw [(mainExitCode_zero_iff dict).mpr hex] at hm1
      cases hm1
    · intro hnex
      rcases mainExitCode_zero_or_one dict with h0 | h1
      · exact absurd ((mainExitCode_zero_iff dict).mp h0) hnex
      · rw [h1]

/-- C5 witness: the theorem at a concrete run where tour 100 is available on
2024-03-01 (exit 0 case). -/
theorem c5_exit_code_witness :
    (runMain 1 [100, 200] ⟨2024, 3, 1⟩ ⟨2024, 3, 2⟩ sampleUp sampleNames = .exited 0 ↔
      ∃ p ∈ [(100, ["2024-03-01"]), ((200 : Int), ([] : List String))], p.2 ≠ []) ∧
    (runMain 1 [100, 200] ⟨2024, 3, 1⟩ ⟨2024, 3, 2⟩ sampleUp sampleNames = .exited 1 ↔
      ¬∃ p ∈ [(100, ["2024-03-01"]), ((200 : Int), ([] : List String))], p.2 ≠ []) :=
  c5_exit_code 1 [100, 200] ⟨2024, 3, 1⟩ ⟨2024, 3, 2⟩ sampleUp sampleNames
    [(100, ["2024-03-01"]), (200, [])] [] (by decide) (by decide)

/-- C6: if any queried month gets a non-200 response, the whole resolution
aborts with the transport error (no `AvailabilityResult` is produced — the
return value is `Except.error`, not `Except.ok`), the error propagates so that
the process crashes out of the normal exit-code path, and no retry happens:
the issued-query trace is a prefix of the month list and contains no
duplicate query. -/
theorem c6_transport_aborts (facilityId : Int) (tourIds : List Int) (s e : Date)
    (up : MonthKey → HttpResp) (names : Int → TourResp) (mk : MonthKey)
    (hmem : mk ∈ monthsList s e) (hbad : (up mk).status ≠ 200) :
    (∃ te, getTourAvailabilities facilityId tourIds s e up = .error (.transport te) ∧
      runMain facilityId tourIds s e up names = .crashed (.transport te)) ∧
    (∃ rest, queriesIssued up (monthsList s e) ++ rest = monthsList s e) ∧
    (queriesIssued up (monthsList s e)).Nodup := by
  obtain ⟨te, hte⟩ := fetchMonths_error (monthsList s e) [] ⟨mk, hmem, hbad⟩
  have hga : getTourAvailabilities facilityId tourIds s e up = .error (.transport te) := by
    unfold getTourAvailabilities
    rw [hte]
  refine ⟨⟨te, hga, ?_⟩, queriesIssued_append up (monthsList s e), ?_⟩
  · unfold runMain
    rw [hga]
  · obtain ⟨rest, hr⟩ := queriesIssued_append up (monthsList s e)
    have hnd := monthsList_nodup s e
    rw [← hr] at hnd
    exact hnd.of_append_left

/-- C6 witness: the theorem at a concrete single-month range whose query
returns HTTP 500. -/
theorem c6_transport_aborts_witness :
    (∃ te, getTourAvailabilities 1 [100] ⟨2024, 3, 1⟩ ⟨2024, 3, 2⟩ sampleUpFail =
        .error (.transport te) ∧
      runMain 1 [100] ⟨2024, 3, 1⟩ ⟨2024, 3, 2⟩ sampleUpFail sampleNames =
        .crashed (.transport te)) ∧
    (∃ rest, queriesIssued sampleUpFail (monthsList ⟨2024, 3, 1⟩ ⟨2024, 3, 2⟩) ++ rest =
      monthsList ⟨2024, 3, 1⟩ ⟨2024, 3, 2⟩) ∧
    (queriesIssued sampleUpFail (monthsList ⟨2024, 3, 1⟩ ⟨2024, 3, 2⟩)).Nodup :=
  c6_transport_aborts 1 [100] ⟨2024, 3, 1⟩ ⟨2024, 3, 2⟩ sampleUpFail sampleNames
    (⟨2024, 3⟩ : MonthKey) (by decide) (by decide)

/-- C7 (counterexample): the claim says a failed tour-name lookup aborts the
whole render with no lines emitted for any tour.  With two tours where the
lookup succeeds for the first and fails for the second, the line for the first
tour has already been printed when the render aborts, so lines are emitted. -/
theorem c7_counterexample :
    (printHumanReadable sampleNamesFail [(100, []), (200, [])]).2 =
      some ⟨500, "oops"⟩ ∧
    (printHumanReadable sampleNamesFail [(100, []), (200, [])]).1 =
      ["Tour A: No availabilities :("] := by
  constructor
  · decide
  · decide

/-- C7 (amended): if the tour-name lookup fails for some tour in the result,
the render aborts (it reports a transport error and prints no line for the
failing tour or any tour after it), but the lines for the tours processed
before the first failure have already been emitted: the printed lines are
exactly the rendered lines of the longest prefix of tours whose lookups all
succeed. -/
theorem c7_render_aborts_after_prefix (names : Int → TourResp)
    (dict : List (Int × List String))
    (hex : ∃ p ∈ dict, (names p.1).status ≠ 200) :
    (∃ te, (printHumanReadable names dict).2 = some te) ∧
    (printHumanReadable names dict).1 =
      (dict.takeWhile (fun p => (names p.1).status == 200)).map
        (fun p => renderLine (names p.1).tour_name p.2) := by
  have heq := printHumanReadable_eq names dict
  constructor
  · rcases hdw : dict.dropWhile (fun p => (names p.1).status == 200) with _ | ⟨p, rest⟩
    · exfalso
      obtain ⟨p, hp, hne⟩ := hex
      have hall := List.dropWhile_eq_nil_iff.mp hdw p hp
      simp at hall
      exact hne hall
    · refine ⟨⟨(names p.1).status, (names p.1).text⟩, ?_⟩
      rw [heq]
      show (match dict.dropWhile (fun p => (names p.1).status == 200) with
        | [] => none
        | p :: _ => some (⟨(names p.1).status, (names p.1).text⟩ : TransportErr)) = _
      rw [hdw]
  · rw [heq]

/-- C7 witness: the amended theorem at the counterexample input. -/
theorem c7_render_aborts_after_prefix_witness :
    (∃ te, (printHumanReadable sampleNamesFail [(100, []), (200, [])]).2 = some te) ∧
    (printHumanReadable sampleNamesFail [(100, []), (200, [])]).1 =
      (([(100, []), (200, [])] : List (Int × List String)).takeWhile
          (fun p => (sampleNamesFail p.1).status == 200)).map
        (fun p => renderLine (sampleNamesFail p.1).tour_name p.2) :=
  c7_render_aborts_after_prefix sampleNamesFail [(100, []), (200, [])]
    ⟨(200, []), by decide, by decide⟩

/-- C8: the resolver is a deterministic function of its inputs and the
upstream dataset: two runs with identical facility id, tour list and dates
against upstreams that agree on every monthly query produce equal
AvailabilityResults. -/
theorem c8_deterministic (facilityId : Int) (tourIds : List Int) (s e : Date)
    (up1 up2 : MonthKey → HttpResp) (h : ∀ mk, up1 mk = up2 mk) :
    getTourAvailabilities facilityId tourIds s e up1 =
      getTourAvailabilities facilityId tourIds s e up2 := by
  unfold getTourAvailabilities
  rw [fetchMonths_congr h (monthsList s e) []]

/-- C8 witness: the theorem at a concrete input (an upstream trivially agrees
with itself, so the two calls coincide). -/
theorem c8_deterministic_witness :
    getTourAvailabilities 1 [100, 200] ⟨2024, 3, 1⟩ ⟨2024, 3, 2⟩ sampleUp =
      getTourAvailabilities 1 [100, 200] ⟨2024, 3, 1⟩ ⟨2024, 3, 2⟩ sampleUp :=
  c8_deterministic 1 [100, 200] ⟨2024, 3, 1⟩ ⟨2024, 3, 2⟩ sampleUp sampleUp
    (fun _ => rfl)

/-- C9: when the end date is strictly before the start date (valid dates,
duplicate-free tours), the resolver enumerates no dates, so it can never hit
the missing-date KeyError, and any result it returns maps every requested
tour id to the empty list with no diagnostics. -/
theorem c9_inverted_range (facilityId : Int) (tourIds : List Int) (s e : Date)
    (up : MonthKey → HttpResp) (hs : validDate s) (he : validDate e)
    (hlt : dateLt e s) (hnd : tourIds.Nodup) :
    desiredDates s e = [] ∧
    (∀ err, getTourAvailabilities facilityId tourIds s e up ≠ .error (.keyError err)) ∧
    (∀ dict diags, getTourAvailabilities facilityId tourIds s e up = .ok (dict, diags) →
      dict = tourIds.map (fun t => (t, [])) ∧ diags = []) := by
  have hord : toOrdinal e < toOrdinal s := toOrdinal_lt_of_dateLt he hs hlt
  have hdd : desiredDates s e = [] := by
    unfold desiredDates
    have hz : ((toOrdinal e : Int) - (toOrdinal s : Int) + 1).toNat = 0 := by omega
    rw [hz]
    rfl
  refine ⟨hdd, ?_, ?_⟩
  · intro err
    unfold getTourAvailabilities
    rcases hf : fetchMonths up (monthsList s e) [] with te | snap
    · intro hcon
      injection hcon with h
      cases h
    · show resolveAll facilityId (desiredDates s e) snap tourIds [] [] ≠
        Except.error (.keyError err)
      rw [hdd, resolveAll_nil_dates]
      intro hcon
      cases hcon
  · intro dict diags hok
    unfold getTourAvailabilities at hok
    rcases hf : fetchMonths up (monthsList s e) [] with te | snap
    · rw [hf] at hok; cases hok
    · rw [hf] at hok
      have hok2 : resolveAll facilityId (desiredDates s e) snap tourIds [] [] =
          .ok (dict, diags) := hok
      rw [hdd, resolveAll_nil_dates] at hok2
      have h1 := foldl_dictInsert_eq tourIds [] hnd (by intro x hx; simp)
      simp only [Except.ok.injEq, Prod.mk.injEq] at hok2
      obtain ⟨hd, hg⟩ := hok2
      constructor
      · rw [← hd, h1]
        simp
      · exact hg.symm

/-- C9 witness: the theorem at start 2024-03-20, end 2024-03-10. -/
theorem c9_inverted_range_witness :
    desiredDates ⟨2024, 3, 20⟩ ⟨2024, 3, 10⟩ = [] ∧
    (∀ err, getTourAvailabilities 1 [100, 200] ⟨2024, 3, 20⟩ ⟨2024, 3, 10⟩ sampleUp ≠
      .error (.keyError err)) ∧
    (∀ dict diags,
      getTourAvailabilities 1 [100, 200] ⟨2024, 3, 20⟩ ⟨2024, 3, 10⟩ sampleUp =
        .ok (dict, diags) →
      dict = [100, 200].map (fun t => (t, ([] : List String))) ∧ diags = []) :=
  c9_inverted_range 1 [100, 200] ⟨2024, 3, 20⟩ ⟨2024, 3, 10⟩ sampleUp
    (by decide) (by decide) (by decide) (by decide)

/-- C10: in any successful resolution over valid dates, every string of every
tour's list is the YYYY-MM-DD formatting of a valid calendar date inside the
inclusive range, and every tour's list is strictly increasing in the string
order (hence duplicate-free and chronological). -/
theorem c10_result_sorted_in_range (facilityId : Int) (tourIds : List Int) (s e : Date)
    (up : MonthKey → HttpResp) (dict : List (Int × List String)) (diags : List Diag)
    (hs : validDate s) (he : validDate e)
    (hok : getTourAvailabilities facilityId tourIds s e up = .ok (dict, diags)) :
    ∀ p ∈ dict,
      (∀ str ∈ p.2, ∃ d, validDate d ∧ dateLe s d ∧ dateLe d e ∧ str = formatDate d) ∧
      List.Pairwise (· < ·) p.2 := by
  intro p hp
  unfold getTourAvailabilities at hok
  rcases hf : fetchMonths up (monthsList s e) [] with te | snap
  · rw [hf] at hok; cases hok
  · rw [hf] at hok
    rcases resolveAll_ok_mem tourIds [] [] dict diags hok p hp with hin | ⟨dgs, hpt⟩
    · exact absurd hin (List.not_mem_nil p)
    · have hpres := processTour_ok_dates (desiredDates s e) (p.2, dgs) hpt
      have hchar := processTour_ok_eq facilityId p.1 snap (desiredDates s e) hpres
      rw [hpt] at hchar
      simp only [Except.ok.injEq, Prod.mk.injEq] at hchar
      obtain ⟨hl, _⟩ := hchar
      constructor
      · intro str hstr
        rw [hl] at hstr
        obtain ⟨d, hdf, rfl⟩ := List.mem_map.mp hstr
        have hdm := List.mem_filter.mp hdf
        obtain ⟨hv, hsd, hde⟩ := mem_desiredDates hs he hdm.1
        exact ⟨d, hv, hsd, hde, rfl⟩
      · rw [hl]
        have hpw : List.Pairwise dateLt
            ((desiredDates s e).filter (isAvail snap p.1)) :=
          (desiredDates_pairwise hs he).filter _
        rw [List.pairwise_map]
        refine List.Pairwise.imp_of_mem ?_ hpw
        intro a b ha hb hab
        have hva := (mem_desiredDates hs he (List.mem_filter.mp ha).1).1
        have hvb := (mem_desiredDates hs he (List.mem_filter.mp hb).1).1
        exact formatDate_lt hva hvb hab

/-- C10 witness: the theorem at a concrete successful two-day resolution,
instantiated at the result entry of tour 100. -/
theorem c10_result_sorted_in_range_witness :
    (∀ str ∈ ((100 : Int), ["2024-03-01"]).2,
      ∃ d, validDate d ∧ dateLe ⟨2024, 3, 1⟩ d ∧ dateLe d ⟨2024, 3, 2⟩ ∧
        str = formatDate d) ∧
    List.Pairwise (· < ·) ((100 : Int), ["2024-03-01"]).2 :=
  c10_result_sorted_in_range 1 [100, 200] ⟨2024, 3, 1⟩ ⟨2024, 3, 2⟩ sampleUp
    [(100, ["2024-03-01"]), (200, [])] [] (by decide) (by decide) (by decide)
    (100, ["2024-03-01"]) (by decide)

end Tours
